import Mathlib

/-!
Verification of the journal enrichment pipeline (src/app.py).

The Python code is shallowly embedded: Python strings are modelled as
`List Char` (sequences of characters); `pandas` rows become a structure
`JournalRecord` whose nullable columns (`Publisher`, `Categories`) are
`Option String`; the two remote services (Scopus index verification,
Gemini metadata extraction) are modelled by oracle functions from the
queried title to an outcome value, so that "the pipeline never calls the
service" is expressible as independence from the oracle.

Scope notes on the embedding:
- `Char.toLower` covers the ASCII range, matching the data the app
  handles; Python's `str.lower` additionally folds non-ASCII letters.
- `pySplitlines` handles the line boundaries LF, CR and CRLF; Python's
  `str.splitlines` also splits on rarer boundary characters (\x0b, \x0c,
  \x85, ...), which never occur in the labelled responses parsed here.
- The 0.5s rate-limiting sleep in `check_scopus_indexing` has no
  observable effect on the returned data and is not modelled.
-/

/-- Python's `str.strip` whitespace class (ASCII part): space, tab,
newline, carriage return, vertical tab, form feed. -/
def pyIsSpace (c : Char) : Bool :=
  c == ' ' || c == '\t' || c == '\n' || c == '\r' || c == '\x0b' || c == '\x0c'

/-- Python `str.lower` (ASCII range). -/
def pyLower (s : List Char) : List Char :=
  s.map Char.toLower

/-- Python `str.strip`: drop leading and trailing whitespace. -/
def pyStrip (s : List Char) : List Char :=
  ((s.dropWhile pyIsSpace).reverse.dropWhile pyIsSpace).reverse

/-- Sequence-prefix test (used to model Python `str.startswith`). -/
def isPre : List Char → List Char → Bool
  | [], _ => true
  | _ :: _, [] => false
  | a :: as, b :: bs => a == b && isPre as bs

/-- Python's substring containment `needle in hay` (also the semantics of
`pandas.Series.str.contains` with `regex=False`). -/
def pyContains : List Char → List Char → Bool
  | [], needle => needle.isEmpty
  | c :: t, needle => isPre needle (c :: t) || pyContains t needle

/-- Python `str.split(sep, 1)[1]`: everything after the first colon.
Only applied to lines already known to contain a colon (they start with a
label ending in a colon); on a colon-free line Python would raise, here
the result is the empty sequence. -/
def afterFirstColon : List Char → List Char
  | [] => []
  | ':' :: rest => rest
  | _ :: rest => afterFirstColon rest

/-- Python `str.splitlines`: split on LF, CR or CRLF, no trailing empty
line. -/
def pySplitlines : List Char → List Char → List (List Char)
  | cur, [] => if cur.isEmpty then [] else [cur.reverse]
  | cur, '\r' :: '\n' :: rest => cur.reverse :: pySplitlines [] rest
  | cur, '\r' :: rest => cur.reverse :: pySplitlines [] rest
  | cur, '\n' :: rest => cur.reverse :: pySplitlines [] rest
  | cur, c :: rest => pySplitlines (c :: cur) rest

/-- One row of the SCImago reference table (`scimago` dataframe).
`Publisher` and `Categories` are nullable columns (`NaN` becomes
`none`). -/
structure JournalRecord where
  Title : String
  Issn : String
  Publisher : Option String
  Categories : Option String
deriving Repr, DecidableEq

/-- The filter predicate of `filter_journals` (src/app.py line 45-47):
`df['Categories'].str.contains(category, na=False, regex=False)`.
`na=False` makes a missing Categories value a non-match; the default
`case=True` applies, so this containment test is case-sensitive. -/
def matchesCategory (r : JournalRecord) (category : String) : Bool :=
  match r.Categories with
  | none => false
  | some c => pyContains c.toList category.toList

/-- The row-filtering stage of `filter_journals`, before deduplication. -/
def categoryFiltered (df : List JournalRecord) (category : String) : List JournalRecord :=
  df.filter (fun r => matchesCategory r category)

/-- `DataFrame.drop_duplicates('Title')`: keep the first row with each
Title, drop later duplicates. `seen` accumulates the titles kept so far. -/
def dedupByTitle (seen : List String) : List JournalRecord → List JournalRecord
  | [] => []
  | r :: rs =>
    if seen.contains r.Title then dedupByTitle seen rs
    else r :: dedupByTitle (r.Title :: seen) rs

/-- `filter_journals` (src/app.py lines 43-48): filter by category
substring, then `drop_duplicates('Title')`. -/
def filter_journals (df : List JournalRecord) (category : String) : List JournalRecord :=
  dedupByTitle [] (categoryFiltered df category)

/-- The row-filtering stage of `search_specific_journal` (line 151-153):
`df['Title'].str.contains(pat, na=False, case=False, regex=False)` with
`pat` the stripped query; `case=False` lower-cases both sides. -/
def nameFiltered (df : List JournalRecord) (pat : List Char) : List JournalRecord :=
  df.filter (fun r => pyContains (pyLower r.Title.toList) (pyLower pat))

/-- `search_specific_journal` (src/app.py lines 136-154): empty stripped
query short-circuits to an empty frame; otherwise case-insensitive title
containment, then `drop_duplicates('Title')`. -/
def search_specific_journal (df : List JournalRecord) (journal_name : String) : List JournalRecord :=
  if (pyStrip journal_name.toList).isEmpty then []
  else dedupByTitle [] (nameFiltered df (pyStrip journal_name.toList))

/-- Case-insensitive substring containment, modelled from the SPEC's
words ("contains the query as a case-insensitive substring") for
comparison with the source's `matchesCategory`. -/
def specContainsCI (hay q : String) : Bool :=
  pyContains (pyLower hay.toList) (pyLower q.toList)

/-- `is_predatory` (src/app.py lines 78-85). Both inputs are stripped and
lower-cased (`publisher` falls back to the empty string when it is not
text, i.e. `none` here); each registry is scanned for entries that are
non-empty and EQUAL to the normalized input (`pred == j_lower`). The
registries are modelled as lists of strings; Python's set membership and
this list scan agree because only emptiness of the match list is used. -/
def is_predatory (journal : String) (publisher : Option String)
    (pred_j pred_p : List String) : Bool × Bool :=
  let j_lower := pyLower (pyStrip journal.toList)
  let p_lower := match publisher with
    | some p => pyLower (pyStrip p.toList)
    | none => []
  let pred_j_matches := pred_j.filter (fun pred => !pred.isEmpty && pred.toList == j_lower)
  let pred_p_matches := pred_p.filter (fun pred => !pred.isEmpty && pred.toList == p_lower)
  (!pred_j_matches.isEmpty, !pred_p_matches.isEmpty)

/-- Outcome of the one HTTP GET in `check_scopus_indexing`: a 2xx
response whose JSON has (or lacks) a non-empty `entry` list, an
`requests.HTTPError` raised by `raise_for_status`, or any other
exception (network failure, bad JSON, ...). -/
inductive HttpOutcome where
  | success (entryPresent : Bool)
  | httpError (msg : String)
  | otherError (msg : String)
deriving Repr, DecidableEq

/-- `check_scopus_indexing` (src/app.py lines 50-76). `net` is the
remote-service oracle giving the outcome of the GET for a title.
A successful response yields `bool(...['entry'])`; both exception
branches report the error and return `False`. The unconditional
`time.sleep(0.5)` has no effect on the returned value. -/
def check_scopus_indexing (title : String) (api_key : String)
    (net : String → HttpOutcome) : Bool :=
  match net title with
  | .success entryPresent => entryPresent
  | .httpError _ => false
  | .otherError _ => false

/-- Outcome of the Gemini `generate_content` call in
`search_gemini_info`: either a response text or a raised exception. -/
inductive GeminiOutcome where
  | success (text : String)
  | failure (msg : String)
deriving Repr, DecidableEq

/-- The four parse variables of `search_gemini_info` (line 108):
`apc, freq, open_access, hybrid`, all initially `None`. -/
structure GemFields where
  apc : Option (List Char)
  freq : Option (List Char)
  openAccess : Option Bool
  hybrid : Option Bool
deriving Repr, DecidableEq

/-- Initial parse state: `apc, freq, open_access, hybrid = None, None,
None, None`. -/
def initGem : GemFields := ⟨none, none, none, none⟩

/-- `line.split(':',1)[1].strip()` — the value of a labelled line. -/
def lineVal (line : List Char) : List Char :=
  pyStrip (afterFirstColon line)

/-- The yes/no mapping applied to the `Open Access:` and `Hybrid:`
values (lines 115-121 and 123-129): strip and lower-case the value;
`True` when it starts with `y`, `False` when it starts with `n`,
otherwise `None`. -/
def yesNoVal (line : List Char) : Option Bool :=
  let val := pyLower (lineVal line)
  if isPre ['y'] val then some true
  else if isPre ['n'] val then some false
  else none

/-- The label `'apc:'` tested at line 110. -/
def lApc : List Char := "apc:".toList

/-- The label `'frequency:'` tested at line 112. -/
def lFreq : List Char := "frequency:".toList

/-- The label `'open access:'` tested at line 114. -/
def lOpenAccess : List Char := "open access:".toList

/-- The label `'hybrid:'` tested at line 122. -/
def lHybrid : List Char := "hybrid:".toList

/-- The body of the `for line in text.splitlines()` loop (lines 109-129):
four independent `if line.lower().startswith(label)` tests, each
assigning one of the four variables; the conditions are not exclusive,
but each targets a distinct variable. -/
def applyLine (st : GemFields) (line : List Char) : GemFields :=
  let low := pyLower line
  let st1 := if isPre lApc low then { st with apc := some (lineVal line) } else st
  let st2 := if isPre lFreq low then { st1 with freq := some (lineVal line) } else st1
  let st3 := if isPre lOpenAccess low then { st2 with openAccess := yesNoVal line } else st2
  if isPre lHybrid low then { st3 with hybrid := yesNoVal line } else st3

/-- The parsing loop of `search_gemini_info` over a list of lines. -/
def parseLines (lines : List (List Char)) : GemFields :=
  lines.foldl applyLine initGem

/-- The pure parsing part of `search_gemini_info` (lines 108-129): run
the loop over `text.splitlines()`. -/
def parse_gemini_text (text : String) : GemFields :=
  parseLines (pySplitlines [] text.toList)

/-- `search_gemini_info` (src/app.py lines 87-134), with the Gemini call
abstracted by the oracle `llm`. On a successful call the response text
is parsed; the `except` branch (lines 132-134) reports the error and
returns `(None, None, None, None)`. The `gemini_api_key` only feeds
`genai.configure` and does not alter the returned data. -/
def search_gemini_info (journal_name : String) (gemini_api_key : String)
    (llm : String → GeminiOutcome) :
    Option (List Char) × Option (List Char) × Option Bool × Option Bool :=
  match llm journal_name with
  | .success text =>
    let f := parse_gemini_text text
    (f.apc, f.freq, f.openAccess, f.hybrid)
  | .failure _ => (none, none, none, none)

/-- One row of the `results` table built by `main` (lines 276-288): the
dict literal appended for each candidate. -/
structure EnrichmentResult where
  Title : String
  ISSN : String
  Publisher : Option String
  Categories : Option String
  Scopus_Indexed : Option Bool
  is_predatory_journal : Bool
  is_predatory_publisher : Bool
  APC : Option (List Char)
  Frequency : Option (List Char)
  is_open_access : Option Bool
  is_hybrid : Option Bool
deriving Repr, DecidableEq

/-- One iteration of the enrichment loop in `main` (lines 268-288).
`scopus_key`/`gemini_key` are the credential strings from the text
inputs; Python's truthiness test `if scopus_key` is emptiness here, so
an empty credential skips the Scopus call (recording `None`) and an
empty Gemini key skips extraction (all four fields `None`). -/
def enrichRow (scopus_key gemini_key : String) (net : String → HttpOutcome)
    (llm : String → GeminiOutcome) (pred_j pred_p : List String)
    (row : JournalRecord) : EnrichmentResult :=
  let indexed : Option Bool :=
    if scopus_key = "" then none
    else some (check_scopus_indexing row.Title scopus_key net)
  let pred := is_predatory row.Title row.Publisher pred_j pred_p
  let gem :=
    if gemini_key = "" then (none, none, none, none)
    else search_gemini_info row.Title gemini_key llm
  { Title := row.Title
    ISSN := row.Issn
    Publisher := row.Publisher
    Categories := row.Categories
    Scopus_Indexed := indexed
    is_predatory_journal := pred.1
    is_predatory_publisher := pred.2
    APC := gem.1
    Frequency := gem.2.1
    is_open_access := gem.2.2.1
    is_hybrid := gem.2.2.2 }

/-- The whole enrichment loop of `main` (lines 265-289): one result
appended per row of the filtered frame, in iteration order. -/
def enrich (scopus_key gemini_key : String) (net : String → HttpOutcome)
    (llm : String → GeminiOutcome) (pred_j pred_p : List String)
    (rows : List JournalRecord) : List EnrichmentResult :=
  rows.map (enrichRow scopus_key gemini_key net llm pred_j pred_p)

/-- A line matches one of the four known label prefixes of the Gemini
response format (case-insensitively). -/
def matchesAnyLabel (line : List Char) : Bool :=
  isPre lApc (pyLower line) || isPre lFreq (pyLower line) ||
  isPre lOpenAccess (pyLower line) || isPre lHybrid (pyLower line)

section HelperLemmas

/-- Deduplication only keeps rows of the input frame. -/
lemma mem_dedupByTitle {r : JournalRecord} :
    ∀ (l : List JournalRecord) (seen : List String), r ∈ dedupByTitle seen l → r ∈ l := by
  intro l
  induction l with
  | nil => intro seen h; simpa [dedupByTitle] using h
  | cons a t ih =>
    intro seen h
    by_cases hc : seen.contains a.Title
    · simp only [dedupByTitle, hc, if_pos] at h
      exact List.mem_cons_of_mem a (ih seen h)
    · simp only [dedupByTitle, hc, if_neg, Bool.false_eq_true, not_false_iff] at h
      rcases List.mem_cons.mp h with h1 | h2
      · exact h1 ▸ List.mem_cons_self a t
      · exact List.mem_cons_of_mem a (ih _ h2)

/-- A filtered list is nonempty exactly when some element satisfies the
predicate. -/
lemma filter_not_isEmpty_iff {α : Type} (p : α → Bool) (l : List α) :
    ((!(l.filter p).isEmpty) = true) ↔ ∃ e ∈ l, p e = true := by
  induction l with
  | nil => simp
  | cons a t ih =>
    cases h : p a <;> simp [List.filter_cons, h, ih]

/-- Value of the `apc` field after one loop iteration. -/
lemma applyLine_apc (st : GemFields) (line : List Char) :
    (applyLine st line).apc =
      if isPre lApc (pyLower line) then some (lineVal line) else st.apc := by
  simp only [applyLine]
  split <;> split <;> split <;> split <;> rfl

/-- Value of the `freq` field after one loop iteration. -/
lemma applyLine_freq (st : GemFields) (line : List Char) :
    (applyLine st line).freq =
      if isPre lFreq (pyLower line) then some (lineVal line) else st.freq := by
  simp only [applyLine]
  split <;> split <;> split <;> split <;> rfl

/-- Value of the `open_access` field after one loop iteration. -/
lemma applyLine_openAccess (st : GemFields) (line : List Char) :
    (applyLine st line).openAccess =
      if isPre lOpenAccess (pyLower line) then yesNoVal line else st.openAccess := by
  simp only [applyLine]
  split <;> split <;> split <;> split <;> rfl

/-- Value of the `hybrid` field after one loop iteration. -/
lemma applyLine_hybrid (st : GemFields) (line : List Char) :
    (applyLine st line).hybrid =
      if isPre lHybrid (pyLower line) then yesNoVal line else st.hybrid := by
  simp only [applyLine]
  split <;> split <;> split <;> split <;> rfl

/-- A line matching no label leaves the whole parse state unchanged. -/
lemma applyLine_id_of_no_label {line : List Char} (st : GemFields)
    (h : matchesAnyLabel line = false) : applyLine st line = st := by
  simp only [matchesAnyLabel, Bool.or_eq_false_iff] at h
  obtain ⟨⟨⟨h1, h2⟩, h3⟩, h4⟩ := h
  simp [applyLine, h1, h2, h3, h4]

/-- Lines with no label leave the parse state unchanged (whole loop). -/
lemma foldl_id_of_no_label :
    ∀ (ls : List (List Char)) (st : GemFields),
      (∀ l ∈ ls, matchesAnyLabel l = false) → List.foldl applyLine st ls = st := by
  intro ls
  induction ls with
  | nil => intro st _; rfl
  | cons a t ih =>
    intro st h
    have ha := h a (List.mem_cons_self a t)
    simp only [List.foldl_cons, applyLine_id_of_no_label st ha]
    exact ih st (fun l hl => h l (List.mem_cons_of_mem a hl))

/-- Lines not matching the `apc:` label never change the `apc` field. -/
lemma foldl_apc_const :
    ∀ (ls : List (List Char)) (st : GemFields),
      (∀ l ∈ ls, isPre lApc (pyLower l) = false) →
      (List.foldl applyLine st ls).apc = st.apc := by
  intro ls
  induction ls with
  | nil => intro st _; rfl
  | cons a t ih =>
    intro st h
    have ha := h a (List.mem_cons_self a t)
    simp only [List.foldl_cons]
    rw [ih (applyLine st a) (fun l hl => h l (List.mem_cons_of_mem a hl))]
    rw [applyLine_apc, ha]
    simp

/-- Lines not matching the `frequency:` label never change `freq`. -/
lemma foldl_freq_const :
    ∀ (ls : List (List Char)) (st : GemFields),
      (∀ l ∈ ls, isPre lFreq (pyLower l) = false) →
      (List.foldl applyLine st ls).freq = st.freq := by
  intro ls
  induction ls with
  | nil => intro st _; rfl
  | cons a t ih =>
    intro st h
    have ha := h a (List.mem_cons_self a t)
    simp only [List.foldl_cons]
    rw [ih (applyLine st a) (fun l hl => h l (List.mem_cons_of_mem a hl))]
    rw [applyLine_freq, ha]
    simp

/-- Lines not matching the `open access:` label never change
`open_access`. -/
lemma foldl_openAccess_const :
    ∀ (ls : List (List Char)) (st : GemFields),
      (∀ l ∈ ls, isPre lOpenAccess (pyLower l) = false) →
      (List.foldl applyLine st ls).openAccess = st.openAccess := by
  intro ls
  induction ls with
  | nil => intro st _; rfl
  | cons a t ih =>
    intro st h
    have ha := h a (List.mem_cons_self a t)
    simp only [List.foldl_cons]
    rw [ih (applyLine st a) (fun l hl => h l (List.mem_cons_of_mem a hl))]
    rw [applyLine_openAccess, ha]
    simp

/-- Lines not matching the `hybrid:` label never change `hybrid`. -/
lemma foldl_hybrid_const :
    ∀ (ls : List (List Char)) (st : GemFields),
      (∀ l ∈ ls, isPre lHybrid (pyLower l) = false) →
      (List.foldl applyLine st ls).hybrid = st.hybrid := by
  intro ls
  induction ls with
  | nil => intro st _; rfl
  | cons a t ih =>
    intro st h
    have ha := h a (List.mem_cons_self a t)
    simp only [List.foldl_cons]
    rw [ih (applyLine st a) (fun l hl => h l (List.mem_cons_of_mem a hl))]
    rw [applyLine_hybrid, ha]
    simp

/-- Case analysis of the yes/no mapping for labelled boolean values. -/
lemma yesNoVal_spec (line : List Char) :
    (yesNoVal line = some true ↔ isPre ['y'] (pyLower (lineVal line)) = true) ∧
    (yesNoVal line = some false ↔
      (isPre ['y'] (pyLower (lineVal line)) = false ∧
       isPre ['n'] (pyLower (lineVal line)) = true)) ∧
    (yesNoVal line = none ↔
      (isPre ['y'] (pyLower (lineVal line)) = false ∧
       isPre ['n'] (pyLower (lineVal line)) = false)) := by
  cases h1 : isPre ['y'] (pyLower (lineVal line)) <;>
    cases h2 : isPre ['n'] (pyLower (lineVal line)) <;>
      simp [yesNoVal, h1, h2]

end HelperLemmas

/-- C1 counterexample: category selection is NOT case-insensitive. The
record with Categories `"Computer Science"` contains the query
`"computer science"` as a case-insensitive substring, yet
`filter_journals` does not select it (pandas `str.contains` defaults to
`case=True`), refuting the claimed equivalence at this input. -/
theorem category_match_not_case_insensitive :
    ¬ ((⟨"J", "1", none, some "Computer Science"⟩ : JournalRecord) ∈
          filter_journals [⟨"J", "1", none, some "Computer Science"⟩] "computer science" ↔
        specContainsCI "Computer Science" "computer science" = true) := by
  decide

/-- C1 (amended): for every reference table and query, a record passes
the by-category filter iff its Categories field is present and contains
the query as a CASE-SENSITIVE substring, and passes the by-name filter
iff its Title contains the trimmed query as a case-insensitive
substring. -/
theorem selection_matching_semantics :
    ∀ (df : List JournalRecord) (q : String) (r : JournalRecord),
      (r ∈ categoryFiltered df q ↔
        (r ∈ df ∧ ∃ c, r.Categories = some c ∧ pyContains c.toList q.toList = true)) ∧
      (r ∈ nameFiltered df (pyStrip q.toList) ↔
        (r ∈ df ∧ pyContains (pyLower r.Title.toList) (pyLower (pyStrip q.toList)) = true)) := by
  intro df q r
  constructor
  · simp only [categoryFiltered, List.mem_filter]
    constructor
    · rintro ⟨hdf, hm⟩
      refine ⟨hdf, ?_⟩
      unfold matchesCategory at hm
      cases hc : r.Categories with
      | none => rw [hc] at hm; cases hm
      | some c => rw [hc] at hm; exact ⟨c, rfl, hm⟩
    · rintro ⟨hdf, c, hc, hp⟩
      refine ⟨hdf, ?_⟩
      unfold matchesCategory
      rw [hc]
      exact hp
  · simp only [nameFiltered, List.mem_filter]

/-- C1 (amended) witness: a record whose Categories contains the query
with matching case passes the by-category filter. -/
theorem selection_matching_semantics_witness :
    (⟨"J", "1", none, some "Computer Science"⟩ : JournalRecord) ∈
      categoryFiltered [⟨"J", "1", none, some "Computer Science"⟩] "Science" :=
  ((selection_matching_semantics [⟨"J", "1", none, some "Computer Science"⟩] "Science"
      ⟨"J", "1", none, some "Computer Science"⟩).1).mpr
    ⟨by simp, "Computer Science", rfl, by decide⟩

/-- C2: predatory matching normalizes by strip + lower-case and flags a
match only on exact equality with a non-empty registry entry (never on
substring containment); the journal and publisher booleans are
independent of each other's inputs; registry entry `"fake journal"`
matches `" Fake Journal "` but not `"Fake Journal of Science"`. -/
theorem predatory_exact_match :
    ∀ (j : String) (p : Option String) (pred_j pred_p : List String),
      ((is_predatory j p pred_j pred_p).1 = true ↔
        ∃ e ∈ pred_j, e ≠ "" ∧ e.toList = pyLower (pyStrip j.toList)) ∧
      ((is_predatory j p pred_j pred_p).2 = true ↔
        ∃ e ∈ pred_p, e ≠ "" ∧
          e.toList = (match p with | some s => pyLower (pyStrip s.toList) | none => [])) ∧
      (∀ (p' : Option String) (pred_p' : List String),
        (is_predatory j p pred_j pred_p).1 = (is_predatory j p' pred_j pred_p').1) ∧
      (∀ (j' : String) (pred_j' : List String),
        (is_predatory j p pred_j pred_p).2 = (is_predatory j' p pred_j' pred_p).2) ∧
      (is_predatory " Fake Journal " p ["fake journal"] pred_p).1 = true ∧
      (is_predatory "Fake Journal of Science" p ["fake journal"] pred_p).1 = false := by
  intro j p pred_j pred_p
  refine ⟨?_, ?_, ?_, ?_, ?_, ?_⟩
  · rw [show (is_predatory j p pred_j pred_p).1 =
        !(pred_j.filter (fun pred =>
            !pred.isEmpty && pred.toList == pyLower (pyStrip j.toList))).isEmpty from rfl]
    rw [filter_not_isEmpty_iff]
    constructor
    · rintro ⟨e, he, hpe⟩
      rw [Bool.and_eq_true, Bool.not_eq_true', beq_iff_eq] at hpe
      refine ⟨e, he, ?_, hpe.2⟩
      intro h
      rw [h] at hpe
      exact absurd hpe.1 (by decide)
    · rintro ⟨e, he, hne, heq⟩
      refine ⟨e, he, ?_⟩
      rw [Bool.and_eq_true, Bool.not_eq_true', beq_iff_eq]
      refine ⟨?_, heq⟩
      rw [Bool.eq_false_iff]
      intro hh
      exact hne ((String.isEmpty_iff e).mp hh)
  · rw [show (is_predatory j p pred_j pred_p).2 =
        !(pred_p.filter (fun pred =>
            !pred.isEmpty && pred.toList ==
              (match p with | some s => pyLower (pyStrip s.toList) | none => []))).isEmpty
        from by cases p <;> rfl]
    rw [filter_not_isEmpty_iff]
    constructor
    · rintro ⟨e, he, hpe⟩
      rw [Bool.and_eq_true, Bool.not_eq_true', beq_iff_eq] at hpe
      refine ⟨e, he, ?_, hpe.2⟩
      intro h
      rw [h] at hpe
      exact absurd hpe.1 (by decide)
    · rintro ⟨e, he, hne, heq⟩
      refine ⟨e, he, ?_⟩
      rw [Bool.and_eq_true, Bool.not_eq_true', beq_iff_eq]
      refine ⟨?_, heq⟩
      rw [Bool.eq_false_iff]
      intro hh
      exact hne ((String.isEmpty_iff e).mp hh)
  · intro p' pred_p'
    rfl
  · intro j' pred_j'
    cases p <;> rfl
  · rfl
  · rfl

/-- C2 witness: the spec's own example, entry `"fake journal"` against
input `" Fake Journal "`. -/
theorem predatory_exact_match_witness :
    (is_predatory " Fake Journal " none ["fake journal"] []).1 = true :=
  (predatory_exact_match " Fake Journal " none ["fake journal"] []).2.2.2.2.1

/-- C3: for every non-empty candidate set, the result table has exactly
the same length, and the result at every index carries the Title of the
candidate at the same index — no candidate is dropped, duplicated or
reordered, whatever the service oracles do. -/
theorem enrich_preserves_candidates :
    ∀ (sk gk : String) (net : String → HttpOutcome) (llm : String → GeminiOutcome)
      (pj pp : List String) (rows : List JournalRecord),
      rows ≠ [] →
      (enrich sk gk net llm pj pp rows).length = rows.length ∧
      ∀ i : Nat,
        ((enrich sk gk net llm pj pp rows)[i]?).map (fun e => e.Title) =
          (rows[i]?).map (fun r => r.Title) := by
  intro sk gk net llm pj pp rows _
  constructor
  · simp [enrich]
  · intro i
    rw [enrich, List.getElem?_map]
    cases rows[i]? with
    | none => rfl
    | some r => rfl

/-- C3 witness: a concrete one-candidate run. -/
theorem enrich_preserves_candidates_witness :
    (enrich "" "" (fun _ => HttpOutcome.otherError "down") (fun _ => GeminiOutcome.failure "e")
        [] [] [⟨"Nature", "0028-0836", some "NPG", some "Multidisciplinary"⟩]).length =
      [(⟨"Nature", "0028-0836", some "NPG", some "Multidisciplinary"⟩ : JournalRecord)].length :=
  (enrich_preserves_candidates "" "" (fun _ => HttpOutcome.otherError "down")
    (fun _ => GeminiOutcome.failure "e") [] []
    [⟨"Nature", "0028-0836", some "NPG", some "Multidisciplinary"⟩]
    (by simp)).1

/-- C4: with an empty (i.e. absent) Scopus credential, the enriched
record's index-membership field is `none` (unknown) and the whole
result is independent of the network oracle — no remote verification
call can influence it, for any candidate. -/
theorem scopus_skipped_without_credential :
    ∀ (gk : String) (net net' : String → HttpOutcome) (llm : String → GeminiOutcome)
      (pj pp : List String) (r : JournalRecord),
      (enrichRow "" gk net llm pj pp r).Scopus_Indexed = none ∧
      enrichRow "" gk net llm pj pp r = enrichRow "" gk net' llm pj pp r := by
  intro gk net net' llm pj pp r
  exact ⟨rfl, rfl⟩

/-- C5: a remote verification call that ends in an HTTP-level error, or
cannot be reached at all (any other raised exception: network failure,
bad JSON, ...), is caught inside `check_scopus_indexing`, which returns
`false` instead of raising; the enrichment loop still produces one
result per candidate. -/
theorem scopus_failure_returns_false :
    ∀ (title sk msg gk : String) (net : String → HttpOutcome)
      (llm : String → GeminiOutcome) (pj pp : List String) (rows : List JournalRecord),
      (net title = HttpOutcome.httpError msg ∨ net title = HttpOutcome.otherError msg) →
      check_scopus_indexing title sk net = false ∧
      (enrich sk gk net llm pj pp rows).length = rows.length := by
  intro title sk msg gk net llm pj pp rows h
  constructor
  · unfold check_scopus_indexing
    rcases h with h | h <;> rw [h]
  · simp [enrich]

/-- C5 witness: one oracle that always answers with an HTTP 503 error
and one that is unreachable (times out); the check returns `false` for
both, and a two-candidate batch still yields two results. -/
theorem scopus_failure_returns_false_witness :
    (check_scopus_indexing "Nature" "key" (fun _ => HttpOutcome.httpError "503") = false ∧
      (enrich "key" "" (fun _ => HttpOutcome.httpError "503") (fun _ => GeminiOutcome.failure "e")
          [] [] [⟨"A", "1", none, none⟩, ⟨"B", "2", none, none⟩]).length = 2) ∧
    check_scopus_indexing "Nature" "key" (fun _ => HttpOutcome.otherError "timeout") = false :=
  ⟨scopus_failure_returns_false "Nature" "key" "503" ""
      (fun _ => HttpOutcome.httpError "503") (fun _ => GeminiOutcome.failure "e") [] []
      [⟨"A", "1", none, none⟩, ⟨"B", "2", none, none⟩] (Or.inl rfl),
    (scopus_failure_returns_false "Nature" "key" "timeout" ""
      (fun _ => HttpOutcome.otherError "timeout") (fun _ => GeminiOutcome.failure "e") [] [] []
      (Or.inr rfl)).1⟩

/-- C6: the documented four-line response parses to fee `"500 USD"`,
frequency `"Monthly"`, open-access `true`, hybrid `false`; and in
general each line whose lower-cased form starts with a known label sets
the corresponding field to the trimmed remainder after the first colon,
with the boolean-ish fields `true` iff the value starts with a yes
indicator, `false` iff with a no indicator, and unknown otherwise. -/
theorem gemini_parse_example_and_labels :
    (parse_gemini_text "APC: 500 USD\nFrequency: Monthly\nOpen Access: Yes\nHybrid: No" =
      ⟨some "500 USD".toList, some "Monthly".toList, some true, some false⟩) ∧
    ∀ (st : GemFields) (line : List Char),
      (isPre lApc (pyLower line) = true →
        (applyLine st line).apc = some (pyStrip (afterFirstColon line))) ∧
      (isPre lFreq (pyLower line) = true →
        (applyLine st line).freq = some (pyStrip (afterFirstColon line))) ∧
      (isPre lOpenAccess (pyLower line) = true →
        (((applyLine st line).openAccess = some true ↔
            isPre ['y'] (pyLower (pyStrip (afterFirstColon line))) = true) ∧
          ((applyLine st line).openAccess = some false ↔
            (isPre ['y'] (pyLower (pyStrip (afterFirstColon line))) = false ∧
             isPre ['n'] (pyLower (pyStrip (afterFirstColon line))) = true)) ∧
          ((applyLine st line).openAccess = none ↔
            (isPre ['y'] (pyLower (pyStrip (afterFirstColon line))) = false ∧
             isPre ['n'] (pyLower (pyStrip (afterFirstColon line))) = false)))) ∧
      (isPre lHybrid (pyLower line) = true →
        (((applyLine st line).hybrid = some true ↔
            isPre ['y'] (pyLower (pyStrip (afterFirstColon line))) = true) ∧
          ((applyLine st line).hybrid = some false ↔
            (isPre ['y'] (pyLower (pyStrip (afterFirstColon line))) = false ∧
             isPre ['n'] (pyLower (pyStrip (afterFirstColon line))) = true)) ∧
          ((applyLine st line).hybrid = none ↔
            (isPre ['y'] (pyLower (pyStrip (afterFirstColon line))) = false ∧
             isPre ['n'] (pyLower (pyStrip (afterFirstColon line))) = false)))) := by
  refine ⟨by decide, ?_⟩
  intro st line
  refine ⟨?_, ?_, ?_, ?_⟩
  · intro h
    rw [applyLine_apc, h]
    simp [lineVal]
  · intro h
    rw [applyLine_freq, h]
    simp [lineVal]
  · intro h
    rw [applyLine_openAccess, h]
    simpa [lineVal] using yesNoVal_spec line
  · intro h
    rw [applyLine_hybrid, h]
    simpa [lineVal] using yesNoVal_spec line

/-- C6 witness: a concrete labelled line sets the `apc` field. -/
theorem gemini_parse_example_and_labels_witness :
    (applyLine initGem "APC: 42 EUR".toList).apc =
      some (pyStrip (afterFirstColon "APC: 42 EUR".toList)) :=
  ((gemini_parse_example_and_labels.2 initGem "APC: 42 EUR".toList).1) (by decide)

/-- C7: metadata extraction never fails the pipeline: a raising service
call yields all four fields `none`; an absent credential yields all four
fields `none` in the enriched record; a response with no line matching
any known label parses to all four fields `none`. -/
theorem gemini_failure_all_unknown :
    ∀ (t gk sk : String) (llm : String → GeminiOutcome) (msg : String)
      (net : String → HttpOutcome) (pj pp : List String) (r : JournalRecord) (text : String),
      (llm t = GeminiOutcome.failure msg →
        search_gemini_info t gk llm = (none, none, none, none)) ∧
      ((enrichRow sk "" net llm pj pp r).APC = none ∧
        (enrichRow sk "" net llm pj pp r).Frequency = none ∧
        (enrichRow sk "" net llm pj pp r).is_open_access = none ∧
        (enrichRow sk "" net llm pj pp r).is_hybrid = none) ∧
      ((∀ l ∈ pySplitlines [] text.toList, matchesAnyLabel l = false) →
        parse_gemini_text text = ⟨none, none, none, none⟩) := by
  intro t gk sk llm msg net pj pp r text
  refine ⟨?_, ⟨rfl, rfl, rfl, rfl⟩, ?_⟩
  · intro h
    unfold search_gemini_info
    rw [h]
  · intro h
    unfold parse_gemini_text parseLines
    exact foldl_id_of_no_label _ initGem h

/-- C7 witness: a concrete raising oracle and a concrete label-free
response text. -/
theorem gemini_failure_all_unknown_witness :
    search_gemini_info "Nature" "gk" (fun _ => GeminiOutcome.failure "boom") =
      (none, none, none, none) ∧
    parse_gemini_text "no labels here\njust prose" = ⟨none, none, none, none⟩ :=
  ⟨(gemini_failure_all_unknown "Nature" "gk" "" (fun _ => GeminiOutcome.failure "boom") "boom"
      (fun _ => HttpOutcome.otherError "") [] [] ⟨"A", "1", none, none⟩
      "no labels here\njust prose").1 rfl,
    (gemini_failure_all_unknown "Nature" "gk" "" (fun _ => GeminiOutcome.failure "boom") "boom"
      (fun _ => HttpOutcome.otherError "") [] [] ⟨"A", "1", none, none⟩
      "no labels here\njust prose").2.2 (by decide)⟩

/-- C8: a query whose stripped form is empty makes by-name selection
return `[]` for every reference table (so the table is never consulted),
and a query matching nothing makes either selection mode return `[]` —
never an error. -/
theorem empty_or_unmatched_query_empty :
    ∀ (df df' : List JournalRecord) (q : String),
      (pyStrip q.toList = [] →
        search_specific_journal df q = [] ∧
        search_specific_journal df q = search_specific_journal df' q) ∧
      ((∀ r ∈ df, matchesCategory r q = false) → filter_journals df q = []) ∧
      ((∀ r ∈ df, pyContains (pyLower r.Title.toList) (pyLower (pyStrip q.toList)) = false) →
        search_specific_journal df q = []) := by
  intro df df' q
  refine ⟨?_, ?_, ?_⟩
  · intro h
    have h' : (pyStrip q.toList).isEmpty = true := by rw [h]; rfl
    have e1 : search_specific_journal df q = [] := by
      unfold search_specific_journal
      rw [if_pos h']
    have e2 : search_specific_journal df' q = [] := by
      unfold search_specific_journal
      rw [if_pos h']
    exact ⟨e1, e1.trans e2.symm⟩
  · intro h
    have hf : categoryFiltered df q = [] := by
      unfold categoryFiltered
      rw [List.filter_eq_nil_iff]
      intro r hr
      simp only [h r hr]
      simp
    unfold filter_journals
    rw [hf]
    rfl
  · intro h
    cases he : (pyStrip q.toList).isEmpty with
    | true =>
      unfold search_specific_journal
      rw [if_pos he]
    | false =>
      have hf : nameFiltered df (pyStrip q.toList) = [] := by
        unfold nameFiltered
        rw [List.filter_eq_nil_iff]
        intro r hr
        simp only [h r hr]
        simp
      unfold search_specific_journal
      rw [if_neg (by rw [he]; simp), hf]
      rfl

/-- C8 witness: a whitespace-only query and a no-match category query,
both on concrete one-row tables. -/
theorem empty_or_unmatched_query_empty_witness :
    search_specific_journal [⟨"A", "1", none, none⟩] "   " = [] ∧
    filter_journals [⟨"A", "1", none, some "Medicine"⟩] "Physics" = [] :=
  ⟨((empty_or_unmatched_query_empty [⟨"A", "1", none, none⟩] [] "   ").1 (by decide)).1,
    (empty_or_unmatched_query_empty [⟨"A", "1", none, some "Medicine"⟩] [] "Physics").2.1
      (by decide)⟩

/-- C9: when several response lines match the same label, the parsed
field value comes from the last matching line — any line list before it
is overwritten, and later non-matching lines leave it in place. -/
theorem later_label_line_overwrites :
    ∀ (ls1 ls2 : List (List Char)) (l : List Char),
      (isPre lApc (pyLower l) = true →
        (∀ l' ∈ ls2, isPre lApc (pyLower l') = false) →
        (parseLines (ls1 ++ l :: ls2)).apc = some (lineVal l)) ∧
      (isPre lFreq (pyLower l) = true →
        (∀ l' ∈ ls2, isPre lFreq (pyLower l') = false) →
        (parseLines (ls1 ++ l :: ls2)).freq = some (lineVal l)) ∧
      (isPre lOpenAccess (pyLower l) = true →
        (∀ l' ∈ ls2, isPre lOpenAccess (pyLower l') = false) →
        (parseLines (ls1 ++ l :: ls2)).openAccess = yesNoVal l) ∧
      (isPre lHybrid (pyLower l) = true →
        (∀ l' ∈ ls2, isPre lHybrid (pyLower l') = false) →
        (parseLines (ls1 ++ l :: ls2)).hybrid = yesNoVal l) := by
  intro ls1 ls2 l
  refine ⟨?_, ?_, ?_, ?_⟩
  · intro h hs
    unfold parseLines
    rw [List.foldl_append, List.foldl_cons, foldl_apc_const ls2 _ hs, applyLine_apc, h]
    simp
  · intro h hs
    unfold parseLines
    rw [List.foldl_append, List.foldl_cons, foldl_freq_const ls2 _ hs, applyLine_freq, h]
    simp
  · intro h hs
    unfold parseLines
    rw [List.foldl_append, List.foldl_cons, foldl_openAccess_const ls2 _ hs,
      applyLine_openAccess, h]
    simp
  · intro h hs
    unfold parseLines
    rw [List.foldl_append, List.foldl_cons, foldl_hybrid_const ls2 _ hs, applyLine_hybrid, h]
    simp

/-- C9 witness: two `APC:` lines — the parsed fee is the second one. -/
theorem later_label_line_overwrites_witness :
    (parseLines (["APC: 100".toList] ++ "APC: 200".toList :: [])).apc =
      some (lineVal "APC: 200".toList) :=
  (later_label_line_overwrites ["APC: 100".toList] [] "APC: 200".toList).1
    (by decide) (by decide)

/-- C10: a record whose Categories field is missing never matches any
category query and is excluded from every by-category candidate set,
without error. -/
theorem null_categories_never_selected :
    ∀ (df : List JournalRecord) (q : String) (r : JournalRecord),
      (r.Categories = none → matchesCategory r q = false) ∧
      (r ∈ filter_journals df q → r.Categories ≠ none) := by
  intro df q r
  constructor
  · intro h
    unfold matchesCategory
    rw [h]
  · intro hmem hnone
    simp only [filter_journals] at hmem
    have h1 : r ∈ categoryFiltered df q := mem_dedupByTitle _ _ hmem
    simp only [categoryFiltered, List.mem_filter] at h1
    have h2 := h1.2
    unfold matchesCategory at h2
    rw [hnone] at h2
    simp at h2

/-- C10 witness: a concrete record with missing Categories. -/
theorem null_categories_never_selected_witness :
    matchesCategory ⟨"A", "1", none, none⟩ "Medicine" = false :=
  (null_categories_never_selected [] "Medicine" ⟨"A", "1", none, none⟩).1 rfl

example : pyContains "Computer Science".toList "puter Sci".toList = true := by decide
example : pyContains "Computer Science".toList "computer".toList = false := by decide
example : pyStrip "  Fake Journal ".toList = "Fake Journal".toList := by decide
example : pySplitlines [] "a\nb\r\nc\n".toList = ["a".toList, "b".toList, "c".toList] := by decide
example : afterFirstColon "APC: 500 USD".toList = " 500 USD".toList := by decide
example :
    parse_gemini_text "APC: 500 USD\nFrequency: Monthly\nOpen Access: Yes\nHybrid: No" =
      ⟨some "500 USD".toList, some "Monthly".toList, some true, some false⟩ := by decide
example : is_predatory " Fake Journal " none ["fake journal"] [] = (true, false) := by decide
example : is_predatory "Fake Journal of Science" none ["fake journal"] [] = (false, false) := by decide
example :
    filter_journals [⟨"J", "1", none, some "Computer Science"⟩] "computer science" = [] := by decide
example :
    filter_journals [⟨"J", "1", none, some "Computer Science"⟩] "Science" =
      [⟨"J", "1", none, some "Computer Science"⟩] := by decide
